import Mathlib

/-!
# Fireactive: schema-driven validation and synchronization engine

A shallow embedding, in Lean 4, of the schema/validation/sync core of the
fireactive repository, together with theorems settling the frozen claims
about its natural-language specification.

Embedded from source:
* `src/src/Schema/enum.schema.ts` (`enumr`),
* the `booleanFn` field compiler (appended to
  `src/src/ActiveClass/relations/findById.ts`),
* `src/src/ActiveClass/constructor/makeActiveClassConstructor.ts`
  (the `ActiveRecord` constructor, `iterativelyCheckAgainstSchema`,
  `checkAgainstSchema`, the `name`/`key` static properties),
* `src/src/types/field.types.ts` (`FieldIdentifier`).

Parts of the repository that the claims depend on but whose code is not
under `src/` (`checkPrimitive.ts`, `setupSyncing.ts`,
`withOnChangeListener.ts`, `ActiveClassError.ts`, the `number`/`string`
field compilers, the external `pluralize` collaborator) are modelled from
the spec; each such definition carries a doc comment saying so.
-/

/-- JavaScript runtime values as manipulated by the validation engine:
`undefined` and `null` are distinct, primitives are strings, numbers and
booleans, and objects are string-keyed field lists.  (The repository's
tests exercise only integral numbers, so numbers are embedded as `Int`.) -/
inductive JsVal where
  | undefined : JsVal
  | null : JsVal
  | str (s : String) : JsVal
  | num (n : Int) : JsVal
  | bool (b : Bool) : JsVal
  | obj (fields : List (String × JsVal)) : JsVal

/-- `typeof v === 'undefined'`. -/
def JsVal.isUndefined : JsVal → Bool
  | .undefined => true
  | _ => false

/-- Embeds the `FieldIdentifier` enum of `src/src/types/field.types.ts`. -/
inductive FieldIdentifier where
  | string : FieldIdentifier
  | number : FieldIdentifier
  | boolean : FieldIdentifier
  | enum : FieldIdentifier
  | indexed : FieldIdentifier
deriving DecidableEq

/-- An allowed value of an enum field: the source constrains enum members
to `string | number` (`enumr<T extends string | number>`). -/
inductive EnumVal where
  | str (s : String) : EnumVal
  | num (n : Int) : EnumVal
deriving DecidableEq

/-- The `JsVal` a stored enum member denotes. -/
def EnumVal.toJsVal : EnumVal → JsVal
  | .str s => .str s
  | .num n => .num n

/-- The options bag `{required?, optional?, default?}` accepted by the
field compilers (`FieldOptions<T> & { required?, optional?, default? }`).
`none` for a flag means the key was not supplied (JS `undefined`). -/
structure FieldOpts (α : Type) where
  required : Option Bool := none
  optional : Option Bool := none
  default : Option α := none

/-- The runtime field descriptor produced by the field compilers.
`_hasDefault` is an `Option Bool` because the no-options branch of the
source returns an object on which the `_hasDefault` key is absent, while
the with-options branch always sets it explicitly.  `vals` is the
allowed-values list that `src/src/types/field.types.ts` declares for enum
definitions (`(T extends Array<infer E> ? { vals: E[] } : {})`); it is
`none` when the descriptor object carries no `vals` key. -/
structure FieldDef where
  _fieldIdentifier : FieldIdentifier
  required : Bool
  _hasDefault : Option Bool := none
  default : Option JsVal := none
  vals : Option (List EnumVal) := none

/-- Embeds `enumr` from `src/src/Schema/enum.schema.ts` (lines 23-45).
With no options it returns `{ _fieldIdentifier: FieldIdentifier.enum,
required: true }`.  With options it builds
`{ ...rest, _fieldIdentifier: FieldIdentifier.enum }`, sets
`_hasDefault`/`default` from the supplied default, and computes
`required` from `optional || required === false`.  Note that the source
never copies the `vals` argument into the returned descriptor, and never
compares a supplied default against `vals`. -/
def enumr (vals : List EnumVal)
    (opts : Option (FieldOpts EnumVal)) : FieldDef :=
  match opts with
  | none => { _fieldIdentifier := .enum, required := true }
  | some o =>
      { _fieldIdentifier := .enum
        _hasDefault := some o.default.isSome
        default := o.default.map EnumVal.toJsVal
        required :=
          if o.optional == some true || o.required == some false
          then false else true
        vals := none }

/-- Embeds `booleanFn`, the boolean field compiler (same shape as the
other primitive field compilers), from the source appended to
`src/src/ActiveClass/relations/findById.ts` (lines 92-114). -/
def booleanFn (opts : Option (FieldOpts Bool)) : FieldDef :=
  match opts with
  | none => { _fieldIdentifier := .boolean, required := true }
  | some o =>
      { _fieldIdentifier := .boolean
        _hasDefault := some o.default.isSome
        default := o.default.map JsVal.bool
        required :=
          if o.optional == some true || o.required == some false
          then false else true
        vals := none }

/-- Modelled from the spec: the `number` field compiler
(`number.schema.ts` is not under `src/`).  Per spec §4.1 all primitive
field compilers share the resolution rules; the body mirrors the
`booleanFn` source with the number identifier. -/
def numberFn (opts : Option (FieldOpts Int)) : FieldDef :=
  match opts with
  | none => { _fieldIdentifier := .number, required := true }
  | some o =>
      { _fieldIdentifier := .number
        _hasDefault := some o.default.isSome
        default := o.default.map JsVal.num
        required :=
          if o.optional == some true || o.required == some false
          then false else true
        vals := none }

/-- Modelled from the spec: the `string` field compiler
(`string.schema.ts` is not under `src/`); same shape as `booleanFn`. -/
def stringFn (opts : Option (FieldOpts String)) : FieldDef :=
  match opts with
  | none => { _fieldIdentifier := .string, required := true }
  | some o =>
      { _fieldIdentifier := .string
        _hasDefault := some o.default.isSome
        default := o.default.map JsVal.str
        required :=
          if o.optional == some true || o.required == some false
          then false else true
        vals := none }

/-- A schema tree node: either a compiled field descriptor (the leaf case,
recognized in the source by the presence of `_fieldIdentifier`) or a
nested mapping from keys to schema nodes. -/
inductive SchemaNode where
  | field (fd : FieldDef) : SchemaNode
  | node (children : List (String × SchemaNode)) : SchemaNode

/-- A record schema: the top-level mapping from keys to schema nodes,
in declared key order (`Object.keys` order). -/
def RecordSchema := List (String × SchemaNode)

/-- JS property read on an object's field list: value of the first
matching key, `undefined` when absent. -/
def getField : List (String × JsVal) → String → JsVal
  | [], _ => .undefined
  | (k, v) :: rest, key => if k == key then v else getField rest key

/-- JS property write on an object's field list: replaces the first
matching key in place, or appends. -/
def setField : List (String × JsVal) → String → JsVal → List (String × JsVal)
  | [], key, v => [(key, v)]
  | (k, w) :: rest, key, v =>
      if k == key then (k, v) :: rest else (k, w) :: setField rest key v

/-- lodash `get(o, path)`: walks the path through nested objects,
yielding `undefined` as soon as the path leaves the object structure. -/
def JsVal.getPath : JsVal → List String → JsVal
  | v, [] => v
  | .obj fs, k :: rest => (getField fs k).getPath rest
  | _, _ :: _ => .undefined

/-- lodash `set(o, path, v)`: writes `v` at `path`, replacing non-object
intermediate values with fresh empty objects; a non-object root (and an
empty path) leave the value unchanged, as in lodash's `baseSet`. -/
def JsVal.setPath : JsVal → List String → JsVal → JsVal
  | o, [], _ => o
  | .obj fs, [k], v => .obj (setField fs k v)
  | .obj fs, k :: k2 :: rest, v =>
      let child := getField fs k
      let child' := match child with
        | .obj cfs => JsVal.obj cfs
        | _ => JsVal.obj []
      .obj (setField fs k (child'.setPath (k2 :: rest) v))
  | o, _ :: _, _ => o

/-- Modelled from the spec: validation failures (spec §7 taxonomy), as
raised by the validator walk (`checkPrimitive.ts` is not under `src/`). -/
inductive ValidationError where
  | missingRequired (path : List String) : ValidationError
  | wrongType (path : List String) (expected : FieldIdentifier)
      (actual : JsVal) : ValidationError

/-- Does a present (non-`undefined`) value match a field descriptor?
Modelled from the spec: "verify its runtime type matches `kind`
(string/number/boolean primitive check; for enum, membership in
`allowedValues`; for indexed, every value of the map independently
validated against `valueDescriptor`)".  The descriptor's `vals` is its
allowed-values list; a descriptor carrying no `vals` key has no member
values, so no value can pass the enum membership check (in JavaScript the
membership test on a missing list would itself throw — either way the
check cannot succeed).  The indexed case, which no claim exercises, is
modelled only as the map-shape check. -/
def typeMatches (fd : FieldDef) (v : JsVal) : Bool :=
  match fd._fieldIdentifier with
  | .string => match v with | .str _ => true | _ => false
  | .number => match v with | .num _ => true | _ => false
  | .boolean => match v with | .bool _ => true | _ => false
  | .enum =>
      match fd.vals with
      | some vs => vs.any (fun e => match e.toJsVal, v with
          | .str a, .str b => a == b
          | .num a, .num b => a == b
          | _, _ => false)
      | none => false
  | .indexed => match v with | .obj _ => true | _ => false

/-- Modelled from the spec: `checkPrimitive`
(`src/src/ActiveClass/constructor/checkPrimitive.ts` is not under
`src/`).  Reads the record's value at the schema key path; per spec §4.3:
if the value is absent/`undefined`, apply the default when `_hasDefault`,
else fail `MissingRequiredField` when `required`, else leave it absent;
if the value is present (including `null`), it must pass the type /
membership check or fail `WrongType`. -/
def checkPrimitive (fd : FieldDef) (path : List String) (st : JsVal) :
    Except ValidationError JsVal :=
  let v := st.getPath path
  if v.isUndefined then
    if fd._hasDefault == some true then
      .ok (st.setPath path (fd.default.getD JsVal.undefined))
    else if fd.required then
      .error (.missingRequired path)
    else
      .ok st
  else
    if typeMatches fd v then .ok st
    else .error (.wrongType path fd._fieldIdentifier v)

mutual
/-- Embeds `iterativelyCheckAgainstSchema` from
`src/src/ActiveClass/constructor/makeActiveClassConstructor.ts`
(lines 44-59): at a leaf (`schemaFieldIdentified`), run `checkPrimitive`;
otherwise, set the record's value at the path to `{}` when it is
`undefined`, then recurse into each schema child key.  The source drives
the recursion by looking paths up in the immutable schema; here the
schema node reached by the path is passed structurally. -/
def iterativelyCheckAgainstSchema :
    SchemaNode → List String → JsVal → Except ValidationError JsVal
  | .field fd, path, st => checkPrimitive fd path st
  | .node children, path, st =>
      let st1 := if (st.getPath path).isUndefined
        then st.setPath path (JsVal.obj []) else st
      iterativelyCheckChildren children path st1

/-- The `Object.keys(get(schema, schemaKeyPath)).forEach` loop of
`iterativelyCheckAgainstSchema`, threading the record state and
propagating the first raised error. -/
def iterativelyCheckChildren :
    List (String × SchemaNode) → List String → JsVal →
      Except ValidationError JsVal
  | [], _, st => .ok st
  | (k, child) :: rest, path, st => do
      let st' ← iterativelyCheckAgainstSchema child (path ++ [k]) st
      iterativelyCheckChildren rest path st'
end

/-- Embeds `checkAgainstSchema(true)` from
`makeActiveClassConstructor.ts` (lines 61-69): for each top-level schema
key, set `record[key] = props[key]` and run the iterative check at
`[key]`. -/
def checkAgainstSchema :
    RecordSchema → List (String × JsVal) → JsVal →
      Except ValidationError JsVal
  | [], _, st => .ok st
  | (key, node) :: rest, props, st => do
      let st1 := st.setPath [key] (getField props key)
      let st2 ← iterativelyCheckAgainstSchema node [key] st1
      checkAgainstSchema rest props st2

/-- Modelled from the spec: `ActiveClassError`
(`src/src/ActiveClass/Error/ActiveClassError.ts` is not under `src/`).
Per spec §7 and the repository's tests, it carries a `what` headline and
the underlying cause, and its message is the headline followed by the
field-level reason. -/
structure ActiveClassError where
  what : String
  cause : ValidationError

/-- Modelled from the spec: `ActiveClassError.from(err, { what })` wraps
an underlying error under a headline. -/
def ActiveClassError.fromError (err : ValidationError) (what : String) :
    ActiveClassError :=
  { what := what, cause := err }

/-- Modelled from the spec: the user-facing reason text of a validation
error, naming the offending path and violated constraint kind (tests
match on "required" and "wrong type"). -/
def reasonMessage : ValidationError → String
  | .missingRequired path =>
      "The required property " ++ String.intercalate "." path ++ " is missing"
  | .wrongType path _ _ =>
      "The property " ++ String.intercalate "." path ++ " is of the wrong type"

/-- Modelled from the spec: an `ActiveClassError`'s user-facing message,
e.g. "Could not construct Lightbulb. The required property floors is
missing". -/
def ActiveClassError.message (e : ActiveClassError) : String :=
  e.what ++ ". " ++ reasonMessage e.cause

/-- Embeds the `ActiveRecord` constructor function of
`makeActiveClassConstructor.ts` (lines 23-77): the props argument
defaults to `{}`; `Object.assign(this, props)` seeds the record;
`checkAgainstSchema(true)` validates and defaults it; any error raised by
the walk is caught once and re-thrown as
`ActiveClassError.from(err, { what: "Could not construct <name>" })`. -/
def ActiveRecord (schema : RecordSchema) (className : String)
    (props : Option (List (String × JsVal))) :
    Except ActiveClassError JsVal :=
  let ps := props.getD []
  let record := JsVal.obj ps
  match checkAgainstSchema schema ps record with
  | .ok st => .ok st
  | .error err =>
      .error (ActiveClassError.fromError err
        ("Could not construct " ++ className))

/-- The sync options of an instance, per the repository's tests
(`syncOpts()` returns `{ fromDb, toDb }`). -/
structure SyncOpts where
  fromDb : Bool
  toDb : Bool

/-- Modelled from the spec: the observable synchronization state of one
record instance (spec §4.5; `setupSyncing.ts` and
`withOnChangeListener.ts` are not under `src/`): its current local
properties, its sync options, and the queue of writes enqueued to the
remote store in mutation order. -/
structure SyncState where
  localVal : JsVal
  syncOpts : SyncOpts
  pendingWrites : List JsVal

/-- Modelled from the spec: the shared property-setter path of a syncing
instance.  An assignment is pushed to the remote store (appended to the
pending-writes queue) when to-remote syncing is on, unless it carries the
remote-originated tag (`viaRemoteListener`), which suppresses re-push —
the feedback-loop guard of spec §4.5/§5. -/
def recordSet (s : SyncState) (v : JsVal) (viaRemoteListener : Bool) :
    SyncState :=
  { s with
    localVal := v
    pendingWrites :=
      if s.syncOpts.toDb && !viaRemoteListener
      then s.pendingWrites ++ [v]
      else s.pendingWrites }

/-- Modelled from the spec: the remote change listener.  When
from-remote syncing is on, each remote update event applies the new
snapshot to the local instance exactly once, through the setter, tagged
as remote-originated. -/
def onRemoteChange (s : SyncState) (snapshot : JsVal) : SyncState :=
  if s.syncOpts.fromDb then recordSet s snapshot true else s

/-- Modelled from the spec: an ordinary local mutation — the same setter
path, untagged. -/
def localAssign (s : SyncState) (v : JsVal) : SyncState :=
  recordSet s v false

/-- Modelled from the spec: the `pluralize` collaborator deriving a
table name from a class name — "trivial string transformation, not
specified here" (spec §1); `Car ↦ Cars` per the repository's test. -/
def plural (s : String) : String := s ++ "s"

/-- The static face of a produced class: its (current) `name`. -/
structure ActiveClassShell where
  name : String

/-- Embeds the `key` getter of `makeActiveClassConstructor.ts`
(lines 97-101): `key` is recomputed as `plural(this.name)` on each
access. -/
def ActiveClassShell.key (c : ActiveClassShell) : String := plural c.name

/-- Embeds lines 93-95 of `makeActiveClassConstructor.ts`: when a
`className` is supplied, the constructor's `name` property is overridden
to it; otherwise the function keeps its own name, `ActiveRecord`. -/
def makeActiveClassStatics (className : Option String) : ActiveClassShell :=
  { name := className.getD "ActiveRecord" }

/-- The Lightbulb schema of the repository's basic example
(`src/unnamed/part_001`): `{ floors: Schema.number }`. -/
def lightbulbSchema : RecordSchema :=
  [("floors", SchemaNode.field (numberFn none))]

/-- The nested-hours schema of the spec's nested-defaulting example and
`baseClass.test.ts`: `{hours: {openingTime: number required, closingTime:
number default 20}}`. -/
def hoursSchema : RecordSchema :=
  [("hours", SchemaNode.node
    [("openingTime", SchemaNode.field (numberFn none)),
     ("closingTime",
       SchemaNode.field (numberFn (some { default := some 20 })))])]

/-- The User schema of `baseClass.test.ts` (lines 76-80):
`{username: Schema.string, role: Schema.enum(['admin', 'regular'])}`. -/
def userSchema : RecordSchema :=
  [("username", SchemaNode.field (stringFn none)),
   ("role", SchemaNode.field
     (enumr [EnumVal.str "admin", EnumVal.str "regular"] none))]

/-- The allowed values of the Popcorn flavour enum of
`baseClass.test.ts` (lines 129-135). -/
def saltyVals : List EnumVal := [EnumVal.str "salty", EnumVal.str "sweet"]

/-- Is a field kind one of the non-nullable primitive kinds? -/
def isPrimitiveKind : FieldIdentifier → Bool
  | .string => true
  | .number => true
  | .boolean => true
  | _ => false

/-- A concrete fully-syncing instance state. -/
def demoSyncState : SyncState :=
  { localVal := JsVal.obj []
    syncOpts := { fromDb := true, toDb := true }
    pendingWrites := [] }

theorem getField_setField_ne :
    ∀ (fs : List (String × JsVal)) (key k : String) (v : JsVal),
      k ≠ key → getField (setField fs key v) k = getField fs k
  | [], key, k, v, h => by
      have hne : (key == k) = false := by
        simp only [beq_eq_false_iff_ne, ne_eq]
        exact fun hk => h hk.symm
      simp [setField, getField, hne]
  | (pk, pv) :: rest, key, k, v, h => by
      by_cases hpk : pk = key
      · subst hpk
        have hne : (pk == k) = false := by
          simp only [beq_eq_false_iff_ne, ne_eq]
          exact fun hk => h hk.symm
        simp [setField, getField, hne]
      · have hne : (pk == key) = false := by
          simp only [beq_eq_false_iff_ne, ne_eq]; exact hpk
        by_cases hk : pk = k
        · subst hk
          simp [setField, getField, hne]
        · have hne2 : (pk == k) = false := by
            simp only [beq_eq_false_iff_ne, ne_eq]; exact hk
          simp [setField, getField, hne, hne2,
            getField_setField_ne rest key k v h]

theorem getPath_setPath_ne (st : JsVal) (path : List String) (v : JsVal)
    (k : String) (h : path.head? ≠ some k) :
    (st.setPath path v).getPath [k] = st.getPath [k] := by
  cases path with
  | nil => cases st <;> rfl
  | cons p rest =>
      have hp : k ≠ p := by
        intro hpk
        exact h (by simp [hpk])
      cases st with
      | obj fs =>
          cases rest with
          | nil =>
              simp [JsVal.setPath, JsVal.getPath,
                getField_setField_ne fs p k v hp]
          | cons q qs =>
              simp [JsVal.setPath, JsVal.getPath,
                getField_setField_ne fs p k _ hp]
      | undefined => rfl
      | null => rfl
      | str s => rfl
      | num n => rfl
      | bool b => rfl

theorem checkPrimitive_frame (fd : FieldDef) (path : List String)
    (st st' : JsVal) (k : String) (hh : path.head? ≠ some k)
    (h : checkPrimitive fd path st = Except.ok st') :
    st'.getPath [k] = st.getPath [k] := by
  simp only [checkPrimitive] at h
  split at h
  · split at h
    · cases h
      exact getPath_setPath_ne st path _ k hh
    · split at h
      · exact Except.noConfusion h
      · cases h; rfl
  · split at h
    · cases h; rfl
    · exact Except.noConfusion h

theorem head?_append_singleton_of_ne_nil {p : List String} (ck : String)
    (h : p ≠ []) : (p ++ [ck]).head? = p.head? := by
  cases p with
  | nil => exact absurd rfl h
  | cons a as => rfl

mutual
theorem iterCheck_frame :
    ∀ (node : SchemaNode) (path : List String) (st st' : JsVal) (k : String),
      path ≠ [] → path.head? ≠ some k →
      iterativelyCheckAgainstSchema node path st = Except.ok st' →
      st'.getPath [k] = st.getPath [k]
  | .field fd, path, st, st', k, _, hh, h =>
      checkPrimitive_frame fd path st st' k hh h
  | .node children, path, st, st', k, hne, hh, h => by
      simp only [iterativelyCheckAgainstSchema] at h
      split at h
      · exact (iterChildren_frame children path _ st' k hne hh h).trans
          (getPath_setPath_ne st path _ k hh)
      · exact iterChildren_frame children path st st' k hne hh h

theorem iterChildren_frame :
    ∀ (children : List (String × SchemaNode)) (path : List String)
      (st st' : JsVal) (k : String),
      path ≠ [] → path.head? ≠ some k →
      iterativelyCheckChildren children path st = Except.ok st' →
      st'.getPath [k] = st.getPath [k]
  | [], path, st, st', k, _, _, h => by cases h; rfl
  | (ck, child) :: rest, path, st, st', k, hne, hh, h => by
      simp only [iterativelyCheckChildren, bind, Except.bind] at h
      cases hc : iterativelyCheckAgainstSchema child (path ++ [ck]) st with
      | error e => rw [hc] at h; exact Except.noConfusion h
      | ok st1 =>
          rw [hc] at h
          have hh2 : (path ++ [ck]).head? ≠ some k := by
            rw [head?_append_singleton_of_ne_nil ck hne]; exact hh
          have h1 := iterCheck_frame child (path ++ [ck]) st st1 k
            (by simp) hh2 hc
          have h2 := iterChildren_frame rest path st1 st' k hne hh h
          exact h2.trans h1
end

theorem checkAgainstSchema_frame :
    ∀ (schema : RecordSchema) (props : List (String × JsVal))
      (st st' : JsVal) (k : String),
      k ∉ schema.map Prod.fst →
      checkAgainstSchema schema props st = Except.ok st' →
      st'.getPath [k] = st.getPath [k]
  | [], props, st, st', k, _, h => by cases h; rfl
  | (key, node) :: rest, props, st, st', k, hk, h => by
      simp only [checkAgainstSchema, bind, Except.bind] at h
      have hkey : ¬ key = k := fun hkk => hk (by simp [hkk])
      have hkrest : k ∉ rest.map Prod.fst := by
        intro hmem
        exact hk (by simp [hmem])
      cases hc : iterativelyCheckAgainstSchema node [key]
          (st.setPath [key] (getField props key)) with
      | error e => rw [hc] at h; exact Except.noConfusion h
      | ok st1 =>
          rw [hc] at h
          have h1 := iterCheck_frame node [key] _ st1 k (by simp)
            (by simp [hkey]) hc
          have h0 := getPath_setPath_ne st [key] (getField props key) k
            (by simp [hkey])
          have h2 := checkAgainstSchema_frame rest props st1 st' k hkrest h
          exact h2.trans (h1.trans h0)

theorem ActiveRecord_unknown_prop_frame (schema : RecordSchema)
    (className : String) (props : List (String × JsVal)) (st : JsVal)
    (k : String) (hk : k ∉ schema.map Prod.fst)
    (h : ActiveRecord schema className (some props) = Except.ok st) :
    st.getPath [k] = getField props k := by
  simp only [ActiveRecord, Option.getD_some] at h
  cases hc : checkAgainstSchema schema props (JsVal.obj props) with
  | error e => rw [hc] at h; exact Except.noConfusion h
  | ok st1 =>
      rw [hc] at h
      have hst : st1 = st := by cases h; rfl
      rw [← hst]
      exact (checkAgainstSchema_frame schema props (JsVal.obj props) st1 k
        hk hc).trans (by simp [JsVal.getPath])

/-- Claim C1: for an instance syncing both from and to the remote store,
a remote-originated update event applies the new snapshot to the local
instance exactly once (one setter application, nothing else) and enqueues
no additional write back to the remote store; an untagged local mutation,
by contrast, is pushed. -/
theorem claim_C1_no_feedback_loop (s : SyncState) (v : JsVal)
    (hfrom : s.syncOpts.fromDb = true) (hto : s.syncOpts.toDb = true) :
    (onRemoteChange s v).localVal = v ∧
    (onRemoteChange s v).pendingWrites = s.pendingWrites ∧
    (localAssign s v).pendingWrites = s.pendingWrites ++ [v] := by
  refine ⟨?_, ?_, ?_⟩ <;>
    simp [onRemoteChange, localAssign, recordSet, hfrom, hto]

/-- Witness for C1 at a concrete fully-syncing state. -/
theorem claim_C1_witness :
    (onRemoteChange demoSyncState (JsVal.num 1)).localVal = JsVal.num 1 ∧
    (onRemoteChange demoSyncState (JsVal.num 1)).pendingWrites = [] ∧
    (localAssign demoSyncState (JsVal.num 1)).pendingWrites = [JsVal.num 1] :=
  claim_C1_no_feedback_loop demoSyncState (JsVal.num 1) rfl rfl

/-- Claim C2 (refuted — code bug): the claim requires the compiled enum
descriptor to retain its allowed-values list and construction with a
declared member to succeed.  The source `enumr` never stores `vals` on
the descriptor (though `field.types.ts` declares `vals: E[]` on enum
definitions), so enum membership can never be verified: the test suite's
`new User({username: 'Test', role: 'regular'})` — with `'regular'` a
declared member — fails with a wrong-type error, contradicting
`baseClass.test.ts` lines 85-88. -/
theorem claim_C2_enum_descriptor_drops_vals :
    (∀ (vs : List EnumVal) (opts : Option (FieldOpts EnumVal)),
      (enumr vs opts).vals = none) ∧
    EnumVal.str "regular" ∈ [EnumVal.str "admin", EnumVal.str "regular"] ∧
    ActiveRecord userSchema "User"
        (some [("username", JsVal.str "Test"), ("role", JsVal.str "regular")]) =
      Except.error
        { what := "Could not construct User"
          cause := ValidationError.wrongType ["role"] FieldIdentifier.enum
            (JsVal.str "regular") } := by
  refine ⟨fun vs opts => ?_, by decide, rfl⟩
  cases opts <;> rfl

/-- Claim C3: for every options bag, the produced descriptor has
`_hasDefault = true` exactly when a default is supplied and
`_hasDefault = false` otherwise; independently `required = false` exactly
when the options set `optional` to true or `required` to false, and
`required = true` in every other case, including when no options bag is
passed at all (shown for both field compilers whose source is under
`src/`: `enumr` and `booleanFn`). -/
theorem claim_C3_field_compiler_flags :
    (∀ (vs : List EnumVal) (o : FieldOpts EnumVal),
      ((enumr vs (some o))._hasDefault = some true ↔ o.default.isSome = true) ∧
      ((enumr vs (some o))._hasDefault = some false ↔ o.default.isSome = false) ∧
      ((enumr vs (some o)).required = false ↔
        (o.optional = some true ∨ o.required = some false)) ∧
      (enumr vs none).required = true) ∧
    (∀ o : FieldOpts Bool,
      ((booleanFn (some o))._hasDefault = some true ↔ o.default.isSome = true) ∧
      ((booleanFn (some o))._hasDefault = some false ↔ o.default.isSome = false) ∧
      ((booleanFn (some o)).required = false ↔
        (o.optional = some true ∨ o.required = some false)) ∧
      (booleanFn none).required = true) := by
  constructor
  · intro vs o
    obtain ⟨req, opt, defv⟩ := o
    refine ⟨?_, ?_, ?_, rfl⟩ <;>
      rcases opt with _ | b <;> rcases req with _ | c <;>
        (try cases b) <;> (try cases c) <;> simp [enumr]
  · intro o
    obtain ⟨req, opt, defv⟩ := o
    refine ⟨?_, ?_, ?_, rfl⟩ <;>
      rcases opt with _ | b <;> rcases req with _ | c <;>
        (try cases b) <;> (try cases c) <;> simp [booleanFn]

/-- Claim C4: supplying `null` for a non-nullable primitive field fails as
a wrong-type error — `null` is never treated as absent, so it is never
defaulted and never reported missing; only `undefined`/absence triggers
defaulting (when `_hasDefault`) or the missing-required failure. -/
theorem claim_C4_null_is_wrong_type (fd : FieldDef) (path : List String)
    (st : JsVal) (hnull : st.getPath path = JsVal.null)
    (hprim : isPrimitiveKind fd._fieldIdentifier = true) :
    checkPrimitive fd path st =
      Except.error
        (ValidationError.wrongType path fd._fieldIdentifier JsVal.null) ∧
    ∀ (fd2 : FieldDef) (st2 : JsVal), st2.getPath path = JsVal.undefined →
      (fd2._hasDefault = some true →
        checkPrimitive fd2 path st2 =
          Except.ok (st2.setPath path (fd2.default.getD JsVal.undefined))) ∧
      (fd2._hasDefault ≠ some true → fd2.required = true →
        checkPrimitive fd2 path st2 =
          Except.error (ValidationError.missingRequired path)) := by
  constructor
  · have hmatch : typeMatches fd JsVal.null = false := by
      unfold typeMatches
      cases hfi : fd._fieldIdentifier <;> simp_all [isPrimitiveKind]
    simp [checkPrimitive, hnull, JsVal.isUndefined, hmatch]
  · intro fd2 st2 hu
    constructor
    · intro hd
      simp [checkPrimitive, hu, JsVal.isUndefined, hd]
    · intro hd hr
      have hd' : (fd2._hasDefault == some true) = false := by
        simpa using hd
      simp [checkPrimitive, hu, JsVal.isUndefined, hd', hr]

/-- Witness for C4: the Lightbulb example — `{floors: null}` is a wrong
type, absence with a default is defaulted, absence without a default on a
required field is missing. -/
theorem claim_C4_witness :
    checkPrimitive (numberFn none) ["floors"]
        (JsVal.obj [("floors", JsVal.null)]) =
      Except.error
        (ValidationError.wrongType ["floors"] FieldIdentifier.number
          JsVal.null) ∧
    checkPrimitive (numberFn (some { default := some 20 })) ["floors"]
        (JsVal.obj []) =
      Except.ok (JsVal.obj [("floors", JsVal.num 20)]) ∧
    checkPrimitive (numberFn none) ["floors"] (JsVal.obj []) =
      Except.error (ValidationError.missingRequired ["floors"]) := by
  have h := claim_C4_null_is_wrong_type (numberFn none) ["floors"]
    (JsVal.obj [("floors", JsVal.null)]) rfl rfl
  exact ⟨h.1,
    (h.2 (numberFn (some { default := some 20 })) (JsVal.obj []) rfl).1 rfl,
    (h.2 (numberFn none) (JsVal.obj []) rfl).2 (by decide) rfl⟩

/-- Claim C5: a wholly-omitted nested object is treated as the empty
object and recursed into; concretely, against `{hours: {openingTime:
number required, closingTime: number default 20}}`, constructing with
`{hours: {openingTime: 4}}` yields `closingTime = 20`, and omitting
`hours` entirely fails because `openingTime` is required with no
default. -/
theorem claim_C5_nested_defaulting :
    (∀ (children : List (String × SchemaNode)) (path : List String)
       (st : JsVal),
      (st.getPath path).isUndefined = true →
      iterativelyCheckAgainstSchema (SchemaNode.node children) path st =
        iterativelyCheckChildren children path
          (st.setPath path (JsVal.obj []))) ∧
    Except.map (fun st => st.getPath ["hours", "closingTime"])
        (ActiveRecord hoursSchema "Venue"
          (some [("hours", JsVal.obj [("openingTime", JsVal.num 4)])])) =
      Except.ok (JsVal.num 20) ∧
    ActiveRecord hoursSchema "Venue" (some []) =
      Except.error
        { what := "Could not construct Venue"
          cause := ValidationError.missingRequired ["hours", "openingTime"] } := by
  refine ⟨fun children path st h => ?_, rfl, rfl⟩
  simp [iterativelyCheckAgainstSchema, h]

/-- Witness for C5: the omitted-nested-object rule applied at a concrete
schema node and state. -/
theorem claim_C5_witness :
    iterativelyCheckAgainstSchema
        (SchemaNode.node [("openingTime", SchemaNode.field (numberFn none))])
        ["hours"] (JsVal.obj []) =
      iterativelyCheckChildren
        [("openingTime", SchemaNode.field (numberFn none))] ["hours"]
        ((JsVal.obj []).setPath ["hours"] (JsVal.obj [])) :=
  claim_C5_nested_defaulting.1
    [("openingTime", SchemaNode.field (numberFn none))] ["hours"]
    (JsVal.obj []) rfl

/-- Claim C6 (refuted — code bug): an enum default outside the
allowed-values list should fail with a `ConfigurationError` at
declaration time, but `enumr` performs no such validation (it has no
failure path at all): `Schema.enum(['salty', 'sweet'], {default: 'salt'})`
returns an ordinary descriptor retaining the out-of-range default,
contradicting `baseClass.test.ts` lines 129-135. -/
theorem claim_C6_enum_default_unchecked :
    enumr saltyVals (some { default := some (EnumVal.str "salt") }) =
      { _fieldIdentifier := FieldIdentifier.enum, required := true,
        _hasDefault := some true, default := some (JsVal.str "salt"),
        vals := none } ∧
    EnumVal.str "salt" ∉ saltyVals :=
  ⟨rfl, by decide⟩

/-- Claim C7: every validation error raised anywhere in the schema walk
during construction is caught once at the construction boundary and
re-raised as a single `ActiveClassError` whose headline names the owning
class ("Could not construct <ClassName>") and whose message appends the
underlying field-level reason; conversely every construction failure is
such a wrapped error — no raw validation error escapes. -/
theorem claim_C7_construction_error_boundary :
    (∀ (schema : RecordSchema) (className : String)
       (props : Option (List (String × JsVal))) (err : ValidationError),
      checkAgainstSchema schema (props.getD [])
          (JsVal.obj (props.getD [])) = Except.error err →
      ActiveRecord schema className props =
        Except.error
          { what := "Could not construct " ++ className, cause := err }) ∧
    (∀ (schema : RecordSchema) (className : String)
       (props : Option (List (String × JsVal))) (e : ActiveClassError),
      ActiveRecord schema className props = Except.error e →
      e.what = "Could not construct " ++ className ∧
      e.message =
        "Could not construct " ++ className ++ ". " ++
          reasonMessage e.cause ∧
      checkAgainstSchema schema (props.getD [])
          (JsVal.obj (props.getD [])) = Except.error e.cause) := by
  constructor
  · intro schema className props err h
    simp [ActiveRecord, ActiveClassError.fromError, h]
  · intro schema className props e h
    simp only [ActiveRecord] at h
    cases hc : checkAgainstSchema schema (props.getD [])
        (JsVal.obj (props.getD [])) with
    | ok st => rw [hc] at h; exact Except.noConfusion h
    | error err =>
        rw [hc] at h
        have he : ActiveClassError.fromError err
            ("Could not construct " ++ className) = e := by
          cases h; rfl
        rw [← he]
        exact ⟨rfl, rfl, rfl⟩

/-- Witness for C7 at the Lightbulb example: the missing-required error
raised by the walk surfaces as the wrapped construction error. -/
theorem claim_C7_witness :
    ActiveRecord lightbulbSchema "Lightbulb" none =
      Except.error
        { what := "Could not construct Lightbulb"
          cause := ValidationError.missingRequired ["floors"] } :=
  claim_C7_construction_error_boundary.1 lightbulbSchema "Lightbulb" none
    (ValidationError.missingRequired ["floors"]) rfl

/-- Claim C8: a class produced by the factory with class name N has
`name = N`, and its `key` is the pluralization of its name, recomputed
from the current name on each access (so `Car` gives `Cars`). -/
theorem claim_C8_class_name_and_key :
    (∀ N : String, (makeActiveClassStatics (some N)).name = N ∧
      (makeActiveClassStatics (some N)).key = plural N) ∧
    (∀ c : ActiveClassShell, c.key = plural c.name) ∧
    (makeActiveClassStatics (some "Car")).key = "Cars" :=
  ⟨fun _ => ⟨rfl, rfl⟩, fun _ => rfl, rfl⟩

/-- Claim C9: props not declared in the schema are neither rejected nor
removed — whenever construction succeeds, the instance's value at any
key outside the schema equals the supplied prop value; concretely,
constructing the Lightbulb with an extra `randomProp: 9` succeeds and
keeps it. -/
theorem claim_C9_unknown_props_preserved :
    (∀ (schema : RecordSchema) (className : String)
       (props : List (String × JsVal)) (st : JsVal) (k : String),
      k ∉ schema.map Prod.fst →
      ActiveRecord schema className (some props) = Except.ok st →
      st.getPath [k] = getField props k) ∧
    ActiveRecord lightbulbSchema "Lightbulb"
        (some [("floors", JsVal.num 4), ("randomProp", JsVal.num 9)]) =
      Except.ok
        (JsVal.obj [("floors", JsVal.num 4), ("randomProp", JsVal.num 9)]) :=
  ⟨fun schema className props st k hk h =>
    ActiveRecord_unknown_prop_frame schema className props st k hk h, rfl⟩

/-- Witness for C9: the preservation statement applied to the concrete
Lightbulb construction with the extra `randomProp`. -/
theorem claim_C9_witness :
    (JsVal.obj [("floors", JsVal.num 4), ("randomProp", JsVal.num 9)]).getPath
        ["randomProp"] =
      getField [("floors", JsVal.num 4), ("randomProp", JsVal.num 9)]
        "randomProp" :=
  claim_C9_unknown_props_preserved.1 lightbulbSchema "Lightbulb"
    [("floors", JsVal.num 4), ("randomProp", JsVal.num 9)]
    (JsVal.obj [("floors", JsVal.num 4), ("randomProp", JsVal.num 9)])
    "randomProp" (by decide) rfl

/-- Claim C10: calling the constructor with no argument is the same as
calling it with the empty object — for every schema both calls produce
the identical outcome — and on the required-no-default Lightbulb schema
both fail with the identical missing-required error. -/
theorem claim_C10_no_arg_defaults_to_empty :
    (∀ (schema : RecordSchema) (className : String),
      ActiveRecord schema className none =
        ActiveRecord schema className (some [])) ∧
    ActiveRecord lightbulbSchema "Lightbulb" none =
      Except.error
        { what := "Could not construct Lightbulb"
          cause := ValidationError.missingRequired ["floors"] } ∧
    ActiveRecord lightbulbSchema "Lightbulb" (some []) =
      Except.error
        { what := "Could not construct Lightbulb"
          cause := ValidationError.missingRequired ["floors"] } :=
  ⟨fun _ _ => rfl, rfl, rfl⟩
